import Mathlib

/-!
Shallow embedding of `src/ctfcli/core/challenge.py` (class `Challenge`),
together with theorems settling the frozen claims about its specification.

Python dynamic values are embedded as the inductive `Val`; Python `dict`s
(including the `Challenge` document itself, which subclasses `dict`) are
embedded as association lists with insert-overwrite-in-place semantics,
matching CPython's key-order behaviour.  HTTP responses are embedded as a
structured `Resp` value (the spec treats the transport as a collaborator
returning structured responses).  Python exceptions are embedded as
`Except PyErr`.
-/

namespace Ctfcli

/-- Embedded Python value: the subset of shapes a challenge document,
a challenge payload or a normalized remote challenge can hold.  A dict value
is `map` holding its entries as `pair` values in insertion order (the `pair`
constructor occurs only as a dict entry; a `map` whose entries are not pairs
represents no Python value and the dict helpers ignore such entries). -/
inductive Val where
  | null : Val
  | bool (b : Bool) : Val
  | int (n : Int) : Val
  | str (s : String) : Val
  | pair (k : String) (v : Val) : Val
  | list (xs : List Val) : Val
  | map (kvs : List Val) : Val
deriving Repr

mutual

/-- Number of nodes of a value (list/map spines included); used as the
recursion-depth budget of `Val.beq`. -/
def Val.sz : Val → Nat
  | .null => 1
  | .bool _ => 1
  | .int _ => 1
  | .str _ => 1
  | .pair _ v => Val.sz v + 1
  | .list xs => Val.szList xs + 1
  | .map kvs => Val.szList kvs + 1

/-- Combined size of a list of values. -/
def Val.szList : List Val → Nat
  | [] => 1
  | v :: rest => Val.sz v + Val.szList rest + 1

end

mutual

/-- Python `==` on embedded values, on a fuel budget bounding the recursion
depth (`Val.beq` supplies `sz a + sz b`, which dominates every chain below:
each step consumes one unit and recurses into strictly smaller values, and
each list/map element or scanned entry also consumes one unit, all of which
the spine-counting `sz` accounts for).  Dicts compare order-insensitively —
equal lengths and, for every entry of the first, an equal value at that key
in the second — matching Python dict equality for the duplicate-free dicts
this embedding produces. -/
def Val.beqFuel : Nat → Val → Val → Bool
  | 0, _, _ => false
  | fuel+1, a, b =>
    match a, b with
    | .null, .null => true
    | .bool x, .bool y => x == y
    | .int x, .int y => x == y
    | .str x, .str y => x == y
    | .pair k v, .pair k2 v2 => k == k2 && Val.beqFuel fuel v v2
    | .list as, .list bs => Val.beqListFuel fuel as bs
    | .map as, .map bs => as.length == bs.length && Val.beqMapMemFuel fuel as bs
    | _, _ => false

/-- Elementwise Python `==` on lists. -/
def Val.beqListFuel : Nat → List Val → List Val → Bool
  | 0, _, _ => false
  | _+1, [], [] => true
  | fuel+1, a :: as, b :: bs => Val.beqFuel fuel a b && Val.beqListFuel fuel as bs
  | _+1, _, _ => false

/-- Every entry of the first dict has an equal value in the second. -/
def Val.beqMapMemFuel : Nat → List Val → List Val → Bool
  | 0, _, _ => false
  | _+1, [], _ => true
  | fuel+1, e :: rest, bs => Val.lookupBeqFuel fuel e bs && Val.beqMapMemFuel fuel rest bs

/-- The entry's key is present in the dict with an equal value. -/
def Val.lookupBeqFuel : Nat → Val → List Val → Bool
  | 0, _, _ => false
  | _+1, _, [] => false
  | fuel+1, e, e2 :: rest =>
      match e, e2 with
      | .pair k v, .pair k2 v2 =>
          if k == k2 then Val.beqFuel fuel v v2 else Val.lookupBeqFuel fuel (Val.pair k v) rest
      | _, _ => Val.lookupBeqFuel fuel e rest

end

/-- Python `==` on embedded values. -/
def Val.beq (a b : Val) : Bool := Val.beqFuel (Val.sz a + Val.sz b) a b

instance : BEq Val := ⟨Val.beq⟩

/-- Python truthiness of an embedded value (`if x:`). -/
def Val.truthy : Val → Bool
  | .null => false
  | .bool b => b
  | .int n => n != 0
  | .str s => s ≠ ""
  | .pair _ _ => true
  | .list xs => !xs.isEmpty
  | .map kvs => !kvs.isEmpty

/-- A Python dict with string keys: association list, no duplicate keys,
in insertion order. -/
abbrev Doc := List (String × Val)

/-- Dict lookup (`d[k]` / `d.get(k)` when present): first binding wins;
the insert operation keeps keys unique so this is the only binding. -/
def Doc.find : Doc → String → Option Val
  | [], _ => none
  | (k2, v) :: rest, k => if k2 == k then some v else Doc.find rest k

/-- Python `d.get(k, default)`. -/
def Doc.getD (d : Doc) (k : String) (dflt : Val) : Val :=
  (d.find k).getD dflt

/-- Python `k in d`. -/
def Doc.hasKey (d : Doc) (k : String) : Bool :=
  (d.find k).isSome

/-- Dict assignment `d[k] = v`: overwrite in place when the key exists
(keeping its position, as CPython does), append otherwise. -/
def Doc.insert : Doc → String → Val → Doc
  | [], k, v => [(k, v)]
  | (k2, v2) :: rest, k, v =>
      if k2 == k then (k, v) :: rest else (k2, v2) :: Doc.insert rest k v

/-- Python `{**a, **b}` / `a.update(b)`: fold the right dict's bindings
into the left one, later bindings overwriting earlier ones. -/
def Doc.merge (a b : Doc) : Doc :=
  b.foldl (fun acc kv => Doc.insert acc kv.1 kv.2) a

/-- A dict value from an association list. -/
def Val.mapOf (d : Doc) : Val :=
  .map (d.map (fun kv => Val.pair kv.1 kv.2))

/-- The association list of a dict value's entries (entries that are not
pairs represent no Python value and are dropped). -/
def pairsToDoc (es : List Val) : Doc :=
  es.filterMap (fun e => match e with | .pair k v => some (k, v) | _ => none)

/-- Python `x or y` (value-returning): `x` when truthy, else `y`. -/
def pyOr (x y : Val) : Val :=
  if x.truthy then x else y

/-- The whitespace set of Python `str.strip()`. -/
def isPySpace (c : Char) : Bool :=
  c == ' ' || c == '\t' || c == '\n' || c == '\r' || c == '\x0b' || c == '\x0c'

/-- Drop leading whitespace from a character list. -/
def dropLeadingSpace : List Char → List Char
  | [] => []
  | c :: rest => if isPySpace c then dropLeadingSpace rest else c :: rest

/-- Python `s.strip()`: drop whitespace from both ends. -/
def pyStrip (s : String) : String :=
  String.mk ((dropLeadingSpace (dropLeadingSpace s.data).reverse).reverse)

/-- `.replace("\r\n", "\n")`: left-to-right, non-overlapping. -/
def replaceCRLF : List Char → List Char
  | [] => []
  | '\r' :: '\n' :: rest => '\n' :: replaceCRLF rest
  | c :: rest => c :: replaceCRLF rest

/-- `.replace("\t", "")`. -/
def dropTabs : List Char → List Char
  | [] => []
  | '\t' :: rest => dropTabs rest
  | c :: rest => c :: dropTabs rest

/-- `s.strip().replace("\r\n", "\n").replace("\t", "")`, the chain
`_normalize_challenge` applies to description and attribution. -/
def pyTextNorm (s : String) : String :=
  String.mk (dropTabs (replaceCRLF (pyStrip s).data))

/-- Text normalisation applied to a flag's content:
`strip` plus CRLF→LF (no tab stripping, matching the source). -/
def pyFlagNorm (s : String) : String :=
  String.mk (replaceCRLF (pyStrip s).data)

/-- `s.split("/")`. -/
def splitSlash : List Char → List (List Char)
  | [] => [[]]
  | c :: rest =>
      if c == '/' then [] :: splitSlash rest
      else
        match splitSlash rest with
        | [] => [[c]]
        | g :: gs => (c :: g) :: gs

/-- The part of a URL before the first `?token=` (its `split("?token=")[0]`). -/
def takeUntilToken : List Char → List Char
  | [] => []
  | '?' :: 't' :: 'o' :: 'k' :: 'e' :: 'n' :: '=' :: _ => []
  | c :: rest => c :: takeUntilToken rest

/-- Helper for `pyStrToNat?`: accumulate decimal digits, `none` on the first
non-digit (and on the empty string). -/
def digitsToNat? : List Char → Option Nat → Option Nat
  | [], acc => acc
  | c :: rest, acc =>
      if c.isDigit then digitsToNat? rest (some ((acc.getD 0) * 10 + (c.toNat - 48)))
      else none

/-- Python `s.isdigit()` plus `int(s)`: a nonempty all-digit string parses to
its decimal value. -/
def pyStrToNat? (s : String) : Option Nat := digitsToNat? s.data none

/-- Embedded Python exception kinds raised by the code under study. -/
inductive PyErr where
  | invalidDefinition (msg : String) : PyErr
  | invalidFile (msg : String) : PyErr
  | remoteNotFound (msg : String) : PyErr
  | httpError : PyErr
  | keyError : PyErr
  | indexError : PyErr
  | typeError : PyErr
  | fileNotFound : PyErr
  | unboundLocal : PyErr
deriving Repr, DecidableEq

/-- A structured HTTP response: `ok` mirrors `r.ok`, `data` mirrors
`r.json().get("data", None)` (absent or null collapse to `none`). -/
structure Resp (α : Type) where
  ok : Bool
  data : Option α
deriving Repr

/-- One entry of the admin challenge listing `/api/v1/challenges?view=admin`:
the fields the code reads from it. -/
structure RC where
  id : Int
  name : String
deriving Repr, DecidableEq

/-- Python `d[k]`: the value, or a `KeyError`. -/
def Doc.req (d : Doc) (k : String) : Except PyErr Val :=
  match d.find k with
  | some v => Except.ok v
  | none => Except.error PyErr.keyError

/-- `Challenge.load_installed_challenges` (challenge.py lines 75-87): a failed
response or a response with no (or empty) `data` yields the empty list; this
static method never raises. -/
def loadInstalledChallenges (r : Resp (List RC)) : List RC :=
  if !r.ok then []
  else
    match r.data with
    | none => []
    | some cs => if cs.isEmpty then [] else cs

/-- `Challenge.load_installed_challenge` (lines 61-73): raises
`RemoteChallengeNotFound` on a failed response or falsy `data`. -/
def loadInstalledChallenge (challengeId : Int) (r : Resp Doc) : Except PyErr Doc :=
  if !r.ok then
    Except.error (PyErr.remoteNotFound ("Could not load challenge with id=" ++ toString challengeId))
  else
    match r.data with
    | none =>
        Except.error (PyErr.remoteNotFound ("Could not load challenge with id=" ++ toString challengeId))
    | some d =>
        if d.isEmpty then
          Except.error (PyErr.remoteNotFound ("Could not load challenge with id=" ++ toString challengeId))
        else Except.ok d

/-- `Challenge._load_challenge_id` (lines 245-258): lists all remote
challenges, errors when the listing is empty (which also covers every listing
failure, since `load_installed_challenges` maps those to the empty list), and
otherwise looks the challenge up by exact name against `self["name"]`, taking
the first match (a document without a `name` key raises `KeyError` at the
first comparison). -/
def loadChallengeId (nameV : Option Val) (r : Resp (List RC)) : Except PyErr Int := do
  let remoteChallenges := loadInstalledChallenges r
  if remoteChallenges.isEmpty then
    throw (PyErr.remoteNotFound "Could not load any remote challenges")
  else do
    let nv ← match nameV with
      | some v => pure v
      | none => throw PyErr.keyError
    match remoteChallenges.find? (fun c => (Val.str c.name).beq nv) with
    | some c => pure c.id
    | none =>
        throw (PyErr.remoteNotFound
          ("Could not load remote challenge with name "
            ++ (match nv with | .str s => s | _ => "")))

/-- `Challenge.is_default_challenge_property` (lines 89-111). -/
def isDefaultChallengeProperty (key : String) (value : Val) : Bool :=
  if key == "connection_info" && value.beq .null then true
  else if key == "attempts" && value.beq (.int 0) then true
  else if key == "state" && value.beq (.str "visible") then true
  else if key == "type" && value.beq (.str "standard") then true
  else if ["tags", "hints", "topics", "requirements", "files"].contains key
          && value.beq (.list []) then true
  else if key == "requirements"
          && value.beq (Val.mapOf [("prerequisites", .list []), ("anonymize", .bool false)]) then true
  else if key == "next" && value.beq .null then true
  else false

/-- The loop body of `_validate_files`: raise `InvalidChallengeFile` naming
the first listed file that does not exist on disk. -/
def validateFilesList (fs : String → Option String) (dir : String) :
    List Val → Except PyErr Unit
  | [] => Except.ok ()
  | f :: rest =>
      match f with
      | .str p =>
          if (fs (dir ++ "/" ++ p)).isSome then validateFilesList fs dir rest
          else Except.error (PyErr.invalidFile ("File " ++ p ++ " could not be loaded"))
      | _ => validateFilesList fs dir rest

/-- `Challenge._validate_files` (lines 260-264): `files = self.get("files") or []`,
then every entry must exist on disk (`challenge_directory / f`), else
`InvalidChallengeFile` naming the missing file.  The filesystem is embedded as
a partial map from full paths to file contents; `dir` is the challenge
directory. -/
def validateFiles (doc : Doc) (fs : String → Option String) (dir : String) : Except PyErr Unit :=
  validateFilesList fs dir
    (match pyOr (doc.getD "files" .null) (.list []) with
     | .list xs => xs
     | _ => [])

/-- `Challenge._get_initial_challenge_payload` (lines 266-300).  The payload is
a Python dict built from the scalar fields with `state` set to `"hidden"`,
then (unless ignored) `max_attempts` / `connection_info` are added and the
`extra` and `geo_flags` maps are merged over it verbatim (`{**payload, **extra}`,
so their keys overwrite colliding payload keys).  Note the source's line 285
condition `type(challenge["value"] == int)` is a type object, hence always
truthy, so a non-null `value` is always copied verbatim (overwriting the digit
string cast of line 283). -/
def getInitialChallengePayload (doc : Doc) (ignore : List String) : Except PyErr Doc := do
  let nameV ← doc.req "name"
  let p : Doc :=
    [("name", nameV),
     ("category", doc.getD "category" (.str "")),
     ("description", doc.getD "description" (.str "")),
     ("attribution", doc.getD "attribution" (.str "")),
     ("type", doc.getD "type" (.str "standard")),
     ("state", .str "hidden")]
  let valueV := doc.getD "value" .null
  let p :=
    if !(valueV.beq .null) then
      let p :=
        match valueV with
        | .str s =>
            match pyStrToNat? s with
            | some n => p.insert "value" (.int (Int.ofNat n))
            | none => p
        | _ => p
      p.insert "value" valueV
    else p
  let p :=
    if !ignore.contains "attempts" then p.insert "max_attempts" (doc.getD "attempts" (.int 0))
    else p
  let p :=
    if !ignore.contains "connection_info" then
      p.insert "connection_info" (doc.getD "connection_info" .null)
    else p
  let p ←
    if !ignore.contains "extra" then
      match doc.getD "extra" (.map []) with
      | .map kvs => pure (p.merge (pairsToDoc kvs))
      | _ => throw PyErr.typeError
    else pure p
  let p ←
    if !ignore.contains "geo_flags" then
      match doc.getD "geo_flags" (.map []) with
      | .map kvs => pure (p.merge (pairsToDoc kvs))
      | _ => throw PyErr.typeError
    else pure p
  pure p

/-- `sync` lines 684-694: for each of `value, category, type, description,
attribution` in the ignore-set, substitute the current remote value into the
initial payload (`challenge_payload[p] = remote_challenge[p]`). -/
def syncResetIgnored (p : Doc) (remoteChallenge : Doc) (ignore : List String) : Except PyErr Doc :=
  ["value", "category", "type", "description", "attribution"].foldlM
    (fun acc prop =>
      if ignore.contains prop then do
        let v ← remoteChallenge.req prop
        pure (acc.insert prop v)
      else pure acc)
    p

/-- The initial PATCH payload `sync` sends (lines 679-697): the shared initial
payload with ignored scalar properties reset to the remote values. -/
def syncInitialPayload (doc remoteChallenge : Doc) (ignore : List String) : Except PyErr Doc := do
  let p ← getInitialChallengePayload doc ignore
  syncResetIgnored p remoteChallenge ignore

/-- `sync` lines 773-784: whether the trailing PATCH setting
`state: visible` is issued. -/
def syncMakeVisible (doc remoteChallenge : Doc) (ignore : List String) : Bool :=
  if !ignore.contains "state" then
    (doc.getD "state" (.str "visible")).beq (.str "visible")
  else
    (remoteChallenge.getD "state" .null).beq (.str "visible")

/-- `create` line 857: whether the trailing PATCH setting `state: visible`
is issued. -/
def createMakeVisible (doc : Doc) (ignore : List String) : Bool :=
  (doc.getD "state" (.str "visible")).beq (.str "visible") || ignore.contains "state"

/-- Refinement-side definition written from the spec's words (§4.4): the
resolved desired state of a sync is the document's `state` (default
`visible`); when `state` is in the ignore-set it is instead the remote's
current value.  This predicate holds when that resolved state is visible. -/
def specResolvedDesiredVisibleSync (doc remoteChallenge : Doc) (ignore : List String) : Bool :=
  if ignore.contains "state" then (remoteChallenge.getD "state" .null).beq (.str "visible")
  else (doc.getD "state" (.str "visible")).beq (.str "visible")

/-- Refinement-side definition written from the spec's words (§4.4): the
resolved desired state of a create is the document's `state` (default
`visible`); an ignored field reverts to its default for create, so an ignored
`state` resolves to visible. -/
def specResolvedDesiredVisibleCreate (doc : Doc) (ignore : List String) : Bool :=
  if ignore.contains "state" then true
  else (doc.getD "state" (.str "visible")).beq (.str "visible")

/-- Stable insertion of `x` into a sorted list (helper for the embedding of
Python `list.sort()`). -/
def insertSorted (x : Int) : List Int → List Int
  | [] => [x]
  | y :: ys => if x ≤ y then x :: y :: ys else y :: insertSorted x ys

/-- Python `list.sort()` on a list of ints: ascending insertion sort. -/
def pySortInts : List Int → List Int
  | [] => []
  | x :: xs => insertSorted x (pySortInts xs)

/-- Stable insertion of a string into a sorted list. -/
def insertSortedStr (x : String) : List String → List String
  | [] => [x]
  | y :: ys => if decide (x ≤ y) then x :: y :: ys else y :: insertSortedStr x ys

/-- Python `list.sort()` on a list of strings: ascending insertion sort. -/
def pySortStrs : List String → List String
  | [] => []
  | x :: xs => insertSortedStr x (pySortStrs xs)

/-- The name-resolution loop of `_set_required_challenges` (lines 429-448):
string references resolve to the id of the first listing entry with that
exact name (a miss emits a warning and drops the reference), integer
references are trusted verbatim, anything else is skipped. -/
def resolveRefs (listing : List RC) : List Val → List Int × List String
  | [] => ([], [])
  | e :: rest =>
      let tail := resolveRefs listing rest
      match e with
      | .str s =>
          match listing.find? (fun c => c.name == s) with
          | some c => (c.id :: tail.1, tail.2)
          | none =>
              (tail.1,
               ("Challenge id cannot be found. Skipping invalid requirement name " ++ s ++ ".")
                 :: tail.2)
      | .int n => (n :: tail.1, tail.2)
      | _ => tail

/-- The requirements payload `_set_required_challenges` PATCHes, plus the
warnings it emits. -/
structure ReqPayload where
  prerequisites : List Int
  anonymize : Val
  warnings : List String
deriving Repr

/-- `Challenge._set_required_challenges` (lines 419-467), up to the PATCH call:
reads the `requirements` field (a bare list, or a dict with `prerequisites`
and `anonymize`), resolves references, computes `list(set(...))` solely for
the self-membership test (membership in that set equals membership in the
resolved list), removes the first occurrence of the challenge's own id when
present (Python `list.remove`), sorts ascending and returns the payload.
Only list-shaped prerequisite collections are modelled (Python would iterate
a string character-wise; documents declare a list per the data model). -/
def setRequiredChallenges (reqField : Val) (challengeId : Int) (listing : List RC) :
    Except PyErr ReqPayload := do
  let (rc, anonymize) :=
    match reqField with
    | .map m => (Doc.getD (pairsToDoc m) "prerequisites" (.list []),
                 Doc.getD (pairsToDoc m) "anonymize" (.bool false))
    | other => (other, Val.bool false)
  let elems ←
    match rc with
    | .list xs => pure xs
    | _ => throw PyErr.typeError
  let (requiredChallenges, warns) := resolveRefs listing elems
  let (requiredChallenges, warns) :=
    if requiredChallenges.contains challengeId then
      (requiredChallenges.erase challengeId,
       warns ++ ["Challenge cannot require itself. Skipping invalid requirement."])
    else (requiredChallenges, warns)
  pure ⟨pySortInts requiredChallenges, anonymize, warns⟩

/-- The `next_id` payload `_set_next` PATCHes, plus the warnings it emits. -/
structure NextPayload where
  next_id : Option Int
  warnings : List String
deriving Repr, DecidableEq

/-- `Challenge._set_next` (lines 469-500), up to the PATCH call.  A string
reference is resolved against the listing (first exact-name match; a miss
warns and clears it).  In the positive-integer branch the source executes
`_next = remote_challenge["id"]` (line 487), but `remote_challenge` is only
ever bound by the loop inside the string branch, which did not run, so CPython
raises `UnboundLocalError` there.  A non-positive integer or any other shape
clears the reference.  A resolved reference equal to the challenge's own id is
cleared with a warning. -/
def setNext (nxt : Val) (listing : List RC) (challengeId : Int) : Except PyErr NextPayload := do
  let (resolved, warns) ←
    match nxt with
    | .str s =>
        match listing.find? (fun c => c.name == s) with
        | some c => pure (some c.id, ([] : List String))
        | none =>
            pure (none,
              ["Challenge cannot find next challenge. Maybe it is invalid name or id. It will be cleared."])
    | .int n =>
        if n > 0 then throw PyErr.unboundLocal
        else pure (none, [])
    | _ => pure (none, [])
  let (resolved, warns) :=
    if resolved == some challengeId then
      (none, warns ++ ["Challenge cannot set next challenge itself. Skipping invalid next challenge."])
    else (resolved, warns)
  pure ⟨resolved, warns⟩

/-- Generic association-list lookup (first binding). -/
def AList.findS {α : Type} : List (String × α) → String → Option α
  | [], _ => none
  | (k2, v) :: rest, k => if k2 == k then some v else AList.findS rest k

/-- Generic association-list insert with Python-dict semantics: overwrite in
place when the key exists, append otherwise. -/
def AList.insertS {α : Type} : List (String × α) → String → α → List (String × α)
  | [], k, v => [(k, v)]
  | (k2, v2) :: rest, k, v =>
      if k2 == k then (k, v) :: rest else (k2, v2) :: AList.insertS rest k v

/-- `f.split("/")[-1]` / `Path(f).name`: the basename of a relative path. -/
def basenameOf (f : String) : String :=
  String.mk ((splitSlash f.data).getLastD [])

/-- One remote file as `_normalize_remote_files` reshapes it:
its download URL and its storage location. -/
structure RemoteFileEntry where
  url : String
  location : String
deriving Repr, DecidableEq

/-- `Challenge._normalize_remote_files` (lines 645-655): map each URL to
`(basename ↦ {url, location})`, where the basename is the last path segment
before the `?token=` query and the location the last two segments.  A URL
with fewer than two segments would raise `IndexError` at `file_parts[-2]`. -/
def normalizeRemoteFiles (remoteFiles : List String) :
    Except PyErr (List (String × RemoteFileEntry)) :=
  remoteFiles.foldlM
    (fun acc f =>
      let parts := splitSlash (takeUntilToken f.data)
      match parts.reverse with
      | last :: prev :: _ =>
          Except.ok (AList.insertS acc (String.mk last)
            ⟨f, String.mk prev ++ "/" ++ String.mk last⟩)
      | _ => Except.error PyErr.indexError)
    []

/-- `Challenge._get_files_sha1sums` (lines 657-661): the dict comprehension
`location ↦ sha1sum` over the global challenge-file listing (later entries
overwrite earlier ones, as in a Python dict comprehension). -/
def filesSha1sums (entries : List (String × Option String)) : List (String × Option String) :=
  entries.foldl (fun acc e => AList.insertS acc e.1 e.2) []

/-- A file-mutating remote call issued by the files part of `sync`. -/
inductive FileCall where
  | deleteFile (location : String) : FileCall
  | createFile (path : String) : FileCall
deriving Repr, DecidableEq

/-- `Challenge._delete_file` (lines 356-362): list the global challenge files
and DELETE every entry whose location matches — one call per matching entry
of the current listing. -/
def deleteFileCalls (fileLocations : List String) (loc : String) : List FileCall :=
  (fileLocations.filter (fun l => l == loc)).map (fun _ => FileCall.deleteFile loc)

/-- `Challenge._create_file` (lines 364-373): opens the local file (raising if
it does not exist) and POSTs it. -/
def createFileCall (fs : String → Option String) (dir path : String) :
    Except PyErr FileCall :=
  match fs (dir ++ "/" ++ path) with
  | some _ => Except.ok (FileCall.createFile path)
  | none => Except.error PyErr.fileNotFound

/-- Reads a local challenge file (`open(...)` / `read_bytes()`); contents are
embedded as strings, a missing file raises. -/
def readLocalFile (fs : String → Option String) (dir path : String) : Except PyErr String :=
  match fs (dir ++ "/" ++ path) with
  | some c => Except.ok c
  | none => Except.error PyErr.fileNotFound

/-- The body of the per-local-file loop of `sync` (lines 735-756), for one
local file `basename ↦ path`: absent remotely ⇒ create; present remotely
with a remote checksum equal to the local file's ⇒ no call; otherwise
(differing checksum, or no checksum supplied) ⇒ delete the remote location,
then create.  `shaFn` embeds `hash_file`. -/
def syncFileStep (remoteFiles : List (String × RemoteFileEntry))
    (sha1sums : List (String × Option String)) (fileLocations : List String)
    (fs : String → Option String) (dir : String) (shaFn : String → String)
    (basename path : String) : Except PyErr (List FileCall) := do
  match AList.findS remoteFiles basename with
  | none => do
      let c ← createFileCall fs dir path
      pure [c]
  | some entry => do
      let rsha ← match AList.findS sha1sums entry.location with
        | some v => pure v
        | none => throw PyErr.keyError
      match rsha with
      | some s => do
          let contents ← readLocalFile fs dir path
          if shaFn contents == s then pure []
          else do
            let c ← createFileCall fs dir path
            pure (deleteFileCalls fileLocations entry.location ++ [c])
      | none => do
          let c ← createFileCall fs dir path
          pure (deleteFileCalls fileLocations entry.location ++ [c])

/-- The files part of `sync` (lines 719-756): build the basename maps, delete
remote files no longer referenced locally, and when there are local files,
fetch the checksum registry once and run the per-file loop.  Returns the
file-mutating calls in order: by definition, the calls concerning one local
file are exactly the ones its own `syncFileStep` iteration emits. -/
def syncFiles (docFiles : List String) (remoteUrls : List String)
    (fileEntries : List (String × Option String)) (fs : String → Option String)
    (dir : String) (shaFn : String → String) : Except PyErr (List FileCall) := do
  let localFiles := docFiles.foldl (fun acc f => AList.insertS acc (basenameOf f) f) []
  let remoteFiles ← normalizeRemoteFiles remoteUrls
  let fileLocations := fileEntries.map (fun e => e.1)
  let dels :=
    (remoteFiles.filter (fun kv => (AList.findS localFiles kv.1).isNone)).foldl
      (fun acc kv => acc ++ deleteFileCalls fileLocations kv.2.location) []
  if localFiles.isEmpty then pure dels
  else do
    let sha1sums := filesSha1sums fileEntries
    let steps ← localFiles.mapM
      (fun kv => syncFileStep remoteFiles sha1sums fileLocations fs dir shaFn kv.1 kv.2)
    pure (dels ++ steps.flatten)

/-- A remote HTTP call, by method and endpoint. -/
inductive Call where
  | get (endpoint : String) : Call
  | post (endpoint : String) : Call
  | patch (endpoint : String) : Call
  | delete (endpoint : String) : Call
deriving Repr, DecidableEq

/-- Whether a call is a plain read. -/
def Call.isGet : Call → Bool
  | .get _ => true
  | _ => false

/-- One flag as the flags sub-resource returns it. -/
structure RemoteFlag where
  content : String
  type : String
  data : Option String
deriving Repr

/-- One hint as the hints sub-resource returns it. -/
structure RemoteHint where
  content : String
  cost : Int
deriving Repr

/-- The remote service as the read-only collaborator boundary `verify`
talks to: structured responses for the two endpoints whose status the code
checks, and plain structured data for the sub-resources it reads through
`raise_for_status` (embedded as always succeeding — the spec treats the
transport as returning structured responses). -/
structure Oracle where
  listResp : Resp (List RC)
  chalResp : Int → Resp Doc
  flags : List RemoteFlag
  tags : List String
  hints : List RemoteHint
  topics : List String
  reqPrereqs : List Int
  reqAnonymize : Bool
  nextResp : Int → Resp Doc
  fileEntries : List (String × Option String)
  download : String → String

/-- `.strip().replace("\r\n", "\n").replace("\t", "")` applied to an embedded
value; a non-string raises (`AttributeError`, embedded as `typeError`). -/
def pyTextNormV : Val → Except PyErr Val
  | .str s => Except.ok (.str (pyTextNorm s))
  | _ => Except.error PyErr.typeError

/-- An optional string as an embedded value (`None` or a string). -/
def optStrVal : Option String → Val
  | none => .null
  | some s => .str s

/-- `Challenge._normalize_challenge` (lines 547-643): reshape the fetched
remote challenge into the document's shape — copy the scalar keys present,
normalize the text fields, map `max_attempts` to `attempts`, lift
scoring-decay and geolocation keys, fetch and reshape each sub-resource, and
resolve requirement ids and the `next` id to names.  Returns the normalized
document together with the GET calls issued. -/
def normalizeChallenge (o : Oracle) (challengeId : Int) (cd : Doc) :
    Except PyErr (Doc × List Call) := do
  let copyKeys := ["name", "category", "attribution", "value", "type", "state", "connection_info"]
  let c : Doc := copyKeys.foldl
    (fun (acc : Doc) key =>
      match cd.find key with
      | some v => Doc.insert acc key v
      | none => acc)
    []
  let descV ← cd.req "description"
  let descN ← pyTextNormV descV
  let c : Doc := c.insert "description" descN
  let attrN ← pyTextNormV (cd.getD "attribution" (.str ""))
  let c : Doc := c.insert "attribution" attrN
  let maxAtt ← cd.req "max_attempts"
  let c : Doc := c.insert "attempts" maxAtt
  let c : Doc := ["initial", "decay", "minimum"].foldl
    (fun (acc : Doc) key =>
      match cd.find key with
      | some v =>
          let cur : Doc := match acc.find "extra" with
            | some (.map m) => pairsToDoc m
            | _ => []
          acc.insert "extra" (Val.mapOf (Doc.insert cur key v))
      | none => acc)
    c
  let c : Doc := ["latitude", "longitude", "tolerance_radius"].foldl
    (fun (acc : Doc) key =>
      match cd.find key with
      | some v =>
          let cur : Doc := match acc.find "geo_flags" with
            | some (.map m) => pairsToDoc m
            | _ => []
          acc.insert "geo_flags" (Val.mapOf (Doc.insert cur key v))
      | none => acc)
    c
  let idStr := toString challengeId
  let calls := [Call.get ("/api/v1/challenges/" ++ idStr ++ "/flags")]
  let c := c.insert "flags" (.list (o.flags.map
    (fun f =>
      if f.type == "static" && (f.data == none || f.data == some "") then .str f.content
      else
        Val.mapOf [("content", .str (pyFlagNorm f.content)), ("type", .str f.type),
              ("data", optStrVal f.data)])))
  let calls := calls ++ [Call.get ("/api/v1/challenges/" ++ idStr ++ "/tags")]
  let c := c.insert "tags" (.list (o.tags.map Val.str))
  let calls := calls ++ [Call.get ("/api/v1/challenges/" ++ idStr ++ "/hints")]
  let c := c.insert "hints" (.list (o.hints.map
    (fun h =>
      if h.cost > 0 then Val.mapOf [("content", .str h.content), ("cost", .int h.cost)]
      else .str h.content)))
  let calls := calls ++ [Call.get ("/api/v1/challenges/" ++ idStr ++ "/topics")]
  let c := c.insert "topics" (.list (o.topics.map Val.str))
  let calls := calls ++ [Call.get ("/api/v1/challenges/" ++ idStr ++ "/requirements")]
  let requirements := o.reqPrereqs
  let (prereqNames, calls) ←
    if requirements.length > 0 then do
      -- lines 626-629: GET the admin listing, raise_for_status, index ["data"]
      let calls := calls ++ [Call.get "/api/v1/challenges?view=admin"]
      if !o.listResp.ok then throw PyErr.httpError
      else
        match o.listResp.data with
        | none => throw PyErr.keyError
        | some challenges =>
            pure (((challenges.filter (fun ch => requirements.contains ch.id)).map
                    (fun ch => Val.str ch.name)), calls)
    else pure ([], calls)
  let c := c.insert "requirements"
    (Val.mapOf [("prerequisites", .list prereqNames), ("anonymize", .bool o.reqAnonymize)])
  let nid := cd.getD "next_id" .null
  let (c, calls) ←
    if nid.truthy then
      match nid with
      | .int n => do
          let calls := calls ++ [Call.get ("/api/v1/challenges/" ++ toString n)]
          let r := o.nextResp n
          if !r.ok then throw PyErr.httpError
          else
            match r.data with
            | none => pure (c.insert "next" .null, calls)
            | some d => pure (c.insert "next" (d.getD "name" .null), calls)
      | _ => throw PyErr.typeError
    else pure (c.insert "next" .null, calls)
  pure (c, calls)

/-- Sort an embedded list as Python `list.sort()` would: all-string lists sort
lexicographically; a mixed-type list raises `TypeError` (only the all-string
case, the one the requirements comparison produces, is modelled). -/
def pySortVals (vs : List Val) : Except PyErr (List Val) :=
  match vs.mapM (fun v => match v with | .str s => some s | _ => none) with
  | some ss => Except.ok ((pySortStrs ss).map Val.str)
  | none => Except.error PyErr.typeError

/-- The `normalize_requirements` closure of `_compare_challenge_requirements`
(lines 506-517): integer references resolve to the name of the first listing
entry with that id (an unresolved id is dropped), everything else is kept. -/
def normalizeRequirementsList (remoteChallenges : List RC) : List Val → List Val
  | [] => []
  | r :: rest =>
      let tail := normalizeRequirementsList remoteChallenges rest
      match r with
      | .int n =>
          match remoteChallenges.find? (fun c => c.id == n) with
          | some c => Val.str c.name :: tail
          | none => tail
      | other => other :: tail

/-- `Challenge._compare_challenge_requirements` (lines 502-523): re-list the
remote challenges (a GET), resolve both sides' ids to names, sort and compare. -/
def compareChallengeRequirements (o : Oracle) (r1 r2 : List Val) :
    Except PyErr (Bool × List Call) := do
  let remoteChallenges := loadInstalledChallenges o.listResp
  let nr1 ← pySortVals (normalizeRequirementsList remoteChallenges r1)
  let nr2 ← pySortVals (normalizeRequirementsList remoteChallenges r2)
  pure (Val.beq (.list nr1) (.list nr2), [Call.get "/api/v1/challenges?view=admin"])

/-- The `normalize_next` closure of `_compare_challenge_next` (lines 526-537):
a positive integer is resolved by fetching that challenge (which can raise
`RemoteChallengeNotFound`) and taking its name; a non-positive integer
normalizes to `None`; anything else is kept as-is. -/
def normalizeNext (o : Oracle) (r : Val) : Except PyErr (Val × List Call) := do
  match r with
  | .int n =>
      if n > 0 then do
        let calls := [Call.get ("/api/v1/challenges/" ++ toString n ++ "?view=admin")]
        let rc ← loadInstalledChallenge n (o.chalResp n)
        let idV ← rc.req "id"
        if idV.beq (.int n) then do
          let nameV ← rc.req "name"
          pure (nameV, calls)
        else pure (Val.null, calls)
      else pure (Val.null, [])
  | other => pure (other, [])

/-- `Challenge._compare_challenge_next` (lines 525-539). -/
def compareChallengeNext (o : Oracle) (r1 r2 : Val) : Except PyErr (Bool × List Call) := do
  let (n1, c1) ← normalizeNext o r1
  let (n2, c2) ← normalizeNext o r2
  pure (n1.beq n2, c1 ++ c2)

/-- Outcome of checking one normalized key inside `verify`'s key loop. -/
inductive StepRes where
  | pass : StepRes
  | fail (msg : String) : StepRes
deriving Repr, DecidableEq

/-- The local side of the requirements special case (lines 1018-1023): a dict
value contributes its `prerequisites` entry (a `KeyError` when absent) and its
`anonymize` flag (default false); any other value is used as the reference
list itself with anonymize false.  A non-list reference collection cannot be
iterated by the comparison and raises. -/
def reqLocalSide (dv : Val) : Except PyErr (List Val × Val) :=
  match dv with
  | .map m =>
      match Doc.req (pairsToDoc m) "prerequisites" with
      | .error e => .error e
      | .ok (.list xs) => .ok (xs, Doc.getD (pairsToDoc m) "anonymize" (.bool false))
      | .ok _ => .error PyErr.typeError
  | .list xs => .ok (xs, Val.bool false)
  | _ => .error PyErr.typeError

/-- The normalized-remote `prerequisites` list
(`normalized_challenge[key]["prerequisites"]`, line 1024). -/
def reqRemotePrereqs (v : Val) : Except PyErr (List Val) :=
  match v with
  | .map m =>
      match Doc.req (pairsToDoc m) "prerequisites" with
      | .error e => .error e
      | .ok (.list xs) => .ok xs
      | .ok _ => .error PyErr.typeError
  | _ => .error PyErr.typeError

/-- The normalized-remote `anonymize` flag
(`normalized_challenge[key]["anonymize"]`, line 1025). -/
def reqRemoteAnon (v : Val) : Except PyErr Val :=
  match v with
  | .map m => Doc.req (pairsToDoc m) "anonymize"
  | _ => .error PyErr.typeError

/-- The body of `verify`'s key loop (lines 1003-1037) for one normalized key:
a key absent from the document passes only when the remote value is that
key's default; a present key must compare equal, with the requirements and
next special cases re-comparing after name resolution. -/
def verifyKeyStep (docv : Doc) (o : Oracle) (key : String) (v : Val) :
    Except PyErr (StepRes × List Call) := do
  match docv.find key with
  | none =>
      if isDefaultChallengeProperty key v then pure (.pass, [])
      else pure (.fail (key ++ " is not in challenge."), [])
  | some dv =>
      if dv.beq v then pure (.pass, [])
      else do
        if key == "requirements" then do
          let lp ← reqLocalSide dv
          let vPrereqList ← reqRemotePrereqs v
          let cmp ← compareChallengeRequirements o lp.1 vPrereqList
          let vAnon ← reqRemoteAnon v
          if cmp.1 && lp.2.beq vAnon then pure (.pass, cmp.2)
          else pure (.fail (key ++ " comparison failed."), cmp.2)
        else if key == "next" then do
          let cmp ← compareChallengeNext o dv v
          if cmp.1 then pure (.pass, cmp.2)
          else pure (.fail (key ++ " comparison failed."), cmp.2)
        else pure (.fail (key ++ " comparison failed."), [])

/-- `verify`'s key loop (lines 999-1037) over the normalized keys in order:
ignored keys are skipped, the first failing key short-circuits with `False`
and its diagnostic. -/
def verifyKeysLoop (docv : Doc) (o : Oracle) (ignore : List String) :
    List (String × Val) → Except PyErr (Bool × List String × List Call)
  | [] => Except.ok (true, [], [])
  | (k, v) :: rest =>
      if ignore.contains k then verifyKeysLoop docv o ignore rest
      else do
        let sc ← verifyKeyStep docv o k v
        match sc.1 with
        | .pass => do
            let r ← verifyKeysLoop docv o ignore rest
            pure (r.1, r.2.1, sc.2 ++ r.2.2)
        | .fail m => pure (false, [m], sc.2)

/-- The remote-files loop of `verify` (lines 1064-1098): a remote basename
missing locally fails; with a remote checksum, a mismatch fails and a match
RETURNS TRUE IMMEDIATELY (the source's early `return True` at line 1085,
skipping every remaining file); without a checksum the file is downloaded
and byte-compared, and only this branch continues to the next file. -/
def verifyFilesLoop (localFiles : List (String × String))
    (sha1sums : List (String × Option String)) (fs : String → Option String)
    (dir : String) (shaFn : String → String) (download : String → String) :
    List (String × RemoteFileEntry) → Except PyErr (Bool × List String × List Call)
  | [] => Except.ok (true, [], [])
  | (rname, entry) :: rest =>
      match AList.findS localFiles rname with
      | none => Except.ok (false, [rname ++ " is not in local challenge."], [])
      | some path =>
          match AList.findS sha1sums entry.location with
          | none => Except.error PyErr.keyError
          | some (some s) => do
              let contents ← readLocalFile fs dir path
              if shaFn contents != s then
                pure (false, ["sha1sum does not match with remote one."], [])
              else pure (true, [], [])
          | some none => do
              -- GET of the file's URL (`raise_for_status` embedded as succeeding)
              let rcontents := download entry.url
              let lcontents ← readLocalFile fs dir path
              if rcontents != lcontents then
                pure (false, ["the file content does not match with the remote one."],
                      [Call.get entry.url])
              else do
                let r ← verifyFilesLoop localFiles sha1sums fs dir shaFn download rest
                pure (r.1, r.2.1, Call.get entry.url :: r.2.2)

/-- The files part of `verify` (lines 1040-1100): validate that every local
file exists (failure is caught and yields `False`), check there is no extra
local basename, fetch the checksum registry and run the remote-files loop. -/
def verifyFilesSection (docv : Doc) (cdFiles : List String) (o : Oracle)
    (fs : String → Option String) (dir : String) (shaFn : String → String) :
    Except PyErr (Bool × List String × List Call) := do
  match validateFiles docv fs dir with
  | .error _ => pure (false, ["InvalidChallengeFile"], [])
  | .ok () => do
      let files :=
        match pyOr (docv.getD "files" .null) (.list []) with
        | .list xs => xs
        | _ => []
      let localFiles ← files.foldlM
        (fun acc f =>
          match f with
          | .str p => pure (AList.insertS acc (basenameOf p) p)
          | _ => throw PyErr.typeError)
        []
      let remoteFiles ← normalizeRemoteFiles cdFiles
      match localFiles.find? (fun kv => (AList.findS remoteFiles kv.1).isNone) with
      | some kv => pure (false, [kv.1 ++ " is not in remote challenge."], [])
      | none => do
          let sha1sums := filesSha1sums o.fileEntries
          let (b, msgs, calls) ←
            verifyFilesLoop localFiles sha1sums fs dir shaFn o.download remoteFiles
          pure (b, msgs, Call.get "/api/v1/files?type=challenge" :: calls)

/-- The full outcome of a `verify` call: its result (or the Python exception
it raised), the state of the in-memory challenge document after the call, the
diagnostics it printed, and the remote calls it issued. -/
structure VerifyOut where
  res : Except PyErr Bool
  doc : Doc
  msgs : List String
  calls : List Call
deriving Repr

/-- `Challenge.verify` (lines 990-1100): resolve the challenge id, fetch and
normalize the remote challenge, set `self["files"] = self.get("files") or []`
(line 997 — this writes into the in-memory document), run the key loop, then
(unless ignored) the files checks.  The filesystem argument is read-only
because the source's `verify` only ever opens files for reading. -/
def verify (doc : Doc) (o : Oracle) (fs : String → Option String) (dir : String)
    (shaFn : String → String) (ignore : List String) : VerifyOut :=
  let c0 := [Call.get "/api/v1/challenges?view=admin"]
  match loadChallengeId (doc.find "name") o.listResp with
  | .error e => ⟨.error e, doc, [], c0⟩
  | .ok cid =>
      let c1 := c0 ++ [Call.get ("/api/v1/challenges/" ++ toString cid ++ "?view=admin")]
      match loadInstalledChallenge cid (o.chalResp cid) with
      | .error e => ⟨.error e, doc, [], c1⟩
      | .ok cd =>
          match normalizeChallenge o cid cd with
          | .error e => ⟨.error e, doc, [], c1⟩
          | .ok (nc, ncalls) =>
              let c2 := c1 ++ ncalls
              let cd2 := cd.insert "files" (pyOr (cd.getD "files" .null) (.list []))
              let doc2 := doc.insert "files" (pyOr (doc.getD "files" .null) (.list []))
              match verifyKeysLoop doc2 o ignore nc with
              | .error e => ⟨.error e, doc2, [], c2⟩
              | .ok (false, msgs, kcalls) => ⟨.ok false, doc2, msgs, c2 ++ kcalls⟩
              | .ok (true, msgs, kcalls) =>
                  if ignore.contains "files" then ⟨.ok true, doc2, msgs, c2 ++ kcalls⟩
                  else
                    let cdFiles :=
                      match cd2.getD "files" .null with
                      | .list xs => xs.filterMap
                          (fun v => match v with | .str s => some s | _ => none)
                      | _ => []
                    match verifyFilesSection doc2 cdFiles o fs dir shaFn with
                    | .error e => ⟨.error e, doc2, [], c2 ++ kcalls⟩
                    | .ok (b, fmsgs, fcalls) =>
                        ⟨.ok b, doc2, msgs ++ fmsgs, c2 ++ kcalls ++ fcalls⟩

/-- The pre-flight part of `create` (lines 790-821), up to and including the
first remote call (the challenge POST): ignored-`name`/`value` warnings are
printed but not modelled; a missing/falsy `name` raises, a missing/falsy
`value` raises unless the type is dynamic, and (unless ignored) a truthy
`files` list is validated against the disk.  On success the initial payload
(with create's ignored scalar resets) is built and the POST is the first
remote call; every failure happens before any call. -/
def createAttempt (doc : Doc) (fs : String → Option String) (dir : String)
    (ignore : List String) : (Except PyErr Doc) × List Call :=
  let result : Except PyErr Doc := do
    if !(doc.getD "name" (.bool false)).truthy then
      throw (PyErr.invalidDefinition "Challenge does not provide a name")
    if !(doc.getD "value" (.bool false)).truthy
        && !((doc.getD "type" (.str "standard")).beq (.str "dynamic")) then
      throw (PyErr.invalidDefinition "Challenge does not provide a value")
    if (doc.getD "files" (.bool false)).truthy && !ignore.contains "files" then
      validateFiles doc fs dir
    let p ← getInitialChallengePayload doc ignore
    let p := ["category", "description", "attribution"].foldl
      (fun acc prop => if ignore.contains prop then acc.insert prop (.str "") else acc) p
    pure p
  match result with
  | .error e => (.error e, [])
  | .ok p => (.ok p, [Call.post "/api/v1/challenges"])

/-! Concrete fixtures used by the claim theorems. -/

/-- A one-challenge admin listing. -/
def sampleListing : List RC := [⟨1, "c"⟩]

/-- The remote challenge document (admin view) for the fixtures, parameterized
by its `max_attempts` and its file URLs. -/
def sampleRemoteDoc (att : Int) (files : List Val) : Doc :=
  [("name", .str "c"), ("description", .str "d"), ("max_attempts", .int att),
   ("files", .list files)]

/-- A remote oracle serving the fixture challenge with no sub-resources,
parameterized by `max_attempts`, file URLs and the file-listing entries. -/
def sampleOracle (att : Int) (files : List Val)
    (entries : List (String × Option String)) : Oracle :=
  { listResp := ⟨true, some sampleListing⟩
  , chalResp := fun _ => ⟨true, some (sampleRemoteDoc att files)⟩
  , flags := [], tags := [], hints := [], topics := []
  , reqPrereqs := [], reqAnonymize := false
  , nextResp := fun _ => ⟨false, none⟩
  , fileEntries := entries, download := fun _ => "" }

/-- A local document matching the fixture challenge, with no `files` and no
`attempts` key. -/
def sampleDocNoFiles : Doc :=
  [("name", .str "c"), ("description", .str "d"), ("attribution", .str ""),
   ("flags", .list [])]

/-- The fixture for the verify-files claims: two local files `fa` and `fb`. -/
def c3Doc : Doc :=
  [("name", .str "c"), ("description", .str "d"), ("attribution", .str ""),
   ("flags", .list []), ("files", .list [.str "fa", .str "fb"])]

/-- The remote URLs of the two fixture files. -/
def c3Files : List Val :=
  [.str "http://x/files/aa/fa?token=t", .str "http://x/files/bb/fb?token=u"]

/-- The file-listing entries of the fixture: `fa`'s checksum matches the local
contents, `fb`'s does not. -/
def c3Entries : List (String × Option String) :=
  [("aa/fa", some "A"), ("bb/fb", some "zzz")]

/-- The local filesystem of the fixture: `fa` holds `A`, `fb` holds `B`. -/
def c3Fs : String → Option String :=
  fun p => if p == "d/fa" then some "A" else if p == "d/fb" then some "B" else none

/-! Helper lemmas. -/

theorem mem_insertSorted {y x : Int} {l : List Int} :
    y ∈ insertSorted x l ↔ y = x ∨ y ∈ l := by
  induction l with
  | nil => simp [insertSorted]
  | cons z zs ih =>
      simp only [insertSorted]
      split
      · simp
      · simp only [List.mem_cons, ih]
        tauto

theorem mem_pySortInts {y : Int} {l : List Int} : y ∈ pySortInts l ↔ y ∈ l := by
  induction l with
  | nil => simp [pySortInts]
  | cons z zs ih => simp [pySortInts, mem_insertSorted, ih]

theorem Val.sz_pos (v : Val) : 1 ≤ Val.sz v := by
  cases v <;> simp [Val.sz]

theorem Val.szList_pos (l : List Val) : 1 ≤ Val.szList l := by
  cases l <;> simp [Val.szList]

/-- The fuel argument of the equality test is irrelevant at or above the size
bound: all four mutual comparisons compute the same answer for any two
sufficient budgets.  In particular `Val.beq`'s choice of `sz a + sz b` is
canonical. -/
theorem Val.beqFuel_congr : ∀ f1 : Nat,
    (∀ f2 a b, Val.sz a + Val.sz b ≤ f1 → Val.sz a + Val.sz b ≤ f2 →
      Val.beqFuel f1 a b = Val.beqFuel f2 a b)
    ∧ (∀ f2 as bs, Val.szList as + Val.szList bs ≤ f1 → Val.szList as + Val.szList bs ≤ f2 →
      Val.beqListFuel f1 as bs = Val.beqListFuel f2 as bs)
    ∧ (∀ f2 as bs, Val.szList as + Val.szList bs ≤ f1 → Val.szList as + Val.szList bs ≤ f2 →
      Val.beqMapMemFuel f1 as bs = Val.beqMapMemFuel f2 as bs)
    ∧ (∀ f2 e bs, Val.sz e + Val.szList bs ≤ f1 → Val.sz e + Val.szList bs ≤ f2 →
      Val.lookupBeqFuel f1 e bs = Val.lookupBeqFuel f2 e bs) := by
  intro f1
  induction f1 with
  | zero =>
      refine ⟨?_, ?_, ?_, ?_⟩
      · intro f2 a b h1 _
        have := Val.sz_pos a
        omega
      · intro f2 as bs h1 _
        have := Val.szList_pos as
        omega
      · intro f2 as bs h1 _
        have := Val.szList_pos as
        omega
      · intro f2 e bs h1 _
        have := Val.sz_pos e
        omega
  | succ n ih =>
      obtain ⟨ihV, ihL, ihM, ihK⟩ := ih
      refine ⟨?_, ?_, ?_, ?_⟩
      · intro f2 a b h1 h2
        cases f2 with
        | zero =>
            have := Val.sz_pos a
            omega
        | succ g =>
            cases a <;> cases b <;> simp only [Val.beqFuel]
            case pair.pair k v k2 v2 =>
                simp only [Val.sz] at h1 h2
                rw [ihV g v v2 (by omega) (by omega)]
            case list.list as bs =>
                simp only [Val.sz] at h1 h2
                rw [ihL g as bs (by omega) (by omega)]
            case map.map as bs =>
                simp only [Val.sz] at h1 h2
                rw [ihM g as bs (by omega) (by omega)]
      · intro f2 as bs h1 h2
        cases f2 with
        | zero =>
            have := Val.szList_pos as
            omega
        | succ g =>
            cases as <;> cases bs <;> simp only [Val.beqListFuel]
            case cons.cons a as2 b bs2 =>
                simp only [Val.szList] at h1 h2
                have hb1 := Val.sz_pos a
                have hb2 := Val.sz_pos b
                have hb3 := Val.szList_pos as2
                have hb4 := Val.szList_pos bs2
                rw [ihV g a b (by omega) (by omega), ihL g as2 bs2 (by omega) (by omega)]
      · intro f2 as bs h1 h2
        cases f2 with
        | zero =>
            have := Val.szList_pos as
            omega
        | succ g =>
            cases as with
            | nil => simp only [Val.beqMapMemFuel]
            | cons e rest =>
                simp only [Val.beqMapMemFuel]
                simp only [Val.szList] at h1 h2
                have hb1 := Val.sz_pos e
                have hb2 := Val.szList_pos rest
                have hb3 := Val.szList_pos bs
                rw [ihK g e bs (by omega) (by omega), ihM g rest bs (by omega) (by omega)]
      · intro f2 e bs h1 h2
        cases f2 with
        | zero =>
            have := Val.sz_pos e
            omega
        | succ g =>
            cases bs with
            | nil => simp only [Val.lookupBeqFuel]
            | cons e2 rest =>
                simp only [Val.lookupBeqFuel]
                simp only [Val.szList] at h1 h2
                have hb1 := Val.sz_pos e2
                have hb2 := Val.szList_pos rest
                cases e <;> cases e2 <;> simp only []
                case pair.pair k v k2 v2 =>
                    simp only [Val.sz] at h1 h2 hb1
                    cases hk : (k == k2) with
                    | true =>
                        simp only [hk]
                        rw [ihV g v v2 (by omega) (by omega)]
                        simp
                    | false =>
                        have hrw := ihK g (Val.pair k v) rest
                          (by simp only [Val.sz]; omega) (by simp only [Val.sz]; omega)
                        simp [hk, hrw]
                all_goals
                  rw [ihK g _ rest (by simp only [Val.sz] at h1 ⊢; omega)
                    (by simp only [Val.sz] at h2 ⊢; omega)]

/-- `Val.beq` computed with any sufficient fuel. -/
theorem Val.beqFuel_eq_beq (fuel : Nat) (a b : Val)
    (h : Val.sz a + Val.sz b ≤ fuel) : Val.beqFuel fuel a b = Val.beq a b :=
  (Val.beqFuel_congr fuel).1 (Val.sz a + Val.sz b) a b h le_rfl

theorem Doc.find_insert_of_ne (d : Doc) (k k2 : String) (v : Val) (h : k ≠ k2) :
    (Doc.insert d k v).find k2 = d.find k2 := by
  induction d with
  | nil => simp [Doc.insert, Doc.find, h]
  | cons kv rest ih =>
      rcases kv with ⟨k3, v3⟩
      by_cases h3 : k3 = k
      · subst h3
        simp [Doc.insert, Doc.find, h]
      · simp [Doc.insert, Doc.find, h3, ih]

theorem Doc.find_merge_of_not_hasKey (a b : Doc) (k : String)
    (h : Doc.hasKey b k = false) : (Doc.merge a b).find k = a.find k := by
  induction b generalizing a with
  | nil => rfl
  | cons kv rest ih =>
      rcases kv with ⟨k2, v2⟩
      have hk2 : ¬(k2 = k) := by
        intro hk
        subst hk
        simp [Doc.hasKey, Doc.find] at h
      have hrest : Doc.hasKey rest k = false := by
        simpa [Doc.hasKey, Doc.find, hk2] using h
      rw [show Doc.merge a ((k2, v2) :: rest) = Doc.merge (Doc.insert a k2 v2) rest from rfl]
      rw [ih _ hrest]
      exact Doc.find_insert_of_ne _ _ _ _ hk2

theorem exceptBind_ok {α β : Type} {x : Except PyErr α} {f : α → Except PyErr β} {b : β}
    (h : (x >>= f) = Except.ok b) : ∃ a, x = Except.ok a ∧ f a = Except.ok b := by
  cases x with
  | ok a => exact ⟨a, rfl, by simpa [bind, Except.bind] using h⟩
  | error e => simp [bind, Except.bind] at h

/-- The initial payload's `state` entry is the literal `"hidden"` whenever
neither the `extra` nor the `geo_flags` map carries a `state` key of its own
(they are merged over the payload verbatim and would overwrite it). -/
theorem getInitialChallengePayload_find_state (doc : Doc) (ignore : List String)
    (ex geo : List Val) (p : Doc)
    (hex : doc.getD "extra" (.map []) = Val.map ex)
    (hexk : Doc.hasKey (pairsToDoc ex) "state" = false)
    (hgeo : doc.getD "geo_flags" (.map []) = Val.map geo)
    (hgeok : Doc.hasKey (pairsToDoc geo) "state" = false)
    (hp : getInitialChallengePayload doc ignore = Except.ok p) :
    p.find "state" = some (Val.str "hidden") := by
  unfold getInitialChallengePayload at hp
  rw [hex, hgeo] at hp
  cases hname : doc.req "name" with
  | error e =>
      rw [hname] at hp
      simp [bind, Except.bind] at hp
  | ok nv =>
      rw [hname] at hp
      simp only [bind, Except.bind, pure, Except.pure] at hp
      split at hp <;> split at hp <;>
        (simp only [Except.ok.injEq] at hp; subst hp) <;>
        (repeat' split) <;>
        simp [Doc.find_merge_of_not_hasKey, hexk, hgeok, Doc.find_insert_of_ne, Doc.find]

/-- `syncResetIgnored` only touches the five scalar keys, so it preserves the
payload's `state` entry. -/
theorem syncResetIgnored_find_state (p rc : Doc) (ignore : List String) (q : Doc)
    (h : syncResetIgnored p rc ignore = Except.ok q) :
    q.find "state" = p.find "state" := by
  have main : ∀ (props : List String) (p q : Doc), (∀ pr ∈ props, pr ≠ "state") →
      props.foldlM
        (fun acc prop =>
          if ignore.contains prop then do
            let v ← rc.req prop
            pure (Doc.insert acc prop v)
          else pure acc)
        p = Except.ok q →
      q.find "state" = p.find "state" := by
    intro props
    induction props with
    | nil =>
        intro p q _ h
        simp only [List.foldlM, pure, Except.pure, Except.ok.injEq] at h
        rw [← h]
    | cons pr rest ih =>
        intro p q hne h
        rw [show List.foldlM _ p (pr :: rest) = _ from rfl] at h
        obtain ⟨mid, hmid, h2⟩ := exceptBind_ok h
        dsimp only [] at hmid
        have hstep : mid.find "state" = p.find "state" := by
          split at hmid
          · obtain ⟨v, _, hmid2⟩ := exceptBind_ok hmid
            simp only [pure, Except.pure, Except.ok.injEq] at hmid2
            rw [← hmid2]
            exact Doc.find_insert_of_ne _ _ _ _ (hne pr (List.mem_cons_self pr rest))
          · simp only [pure, Except.pure, Except.ok.injEq] at hmid
            rw [← hmid]
        rw [ih mid q (fun x hx => hne x (List.mem_cons_of_mem pr hx)) h2, hstep]
  unfold syncResetIgnored at h
  exact main _ p q (by simp) h

/-- A files list containing a path that is missing on disk makes
`_validate_files` raise `InvalidChallengeFile`. -/
theorem validateFilesList_error_of_missing (fs : String → Option String)
    (dir : String) (files : List Val) (p : String)
    (hmem : Val.str p ∈ files) (hmiss : fs (dir ++ "/" ++ p) = none) :
    ∃ m, validateFilesList fs dir files = Except.error (PyErr.invalidFile m) := by
  induction files with
  | nil => cases hmem
  | cons f rest ih =>
      rcases List.mem_cons.mp hmem with h | h
      · subst h
        unfold validateFilesList
        simp [hmiss]
      · match f with
        | .str q =>
            unfold validateFilesList
            cases hq : (fs (dir ++ "/" ++ q)).isSome
            · simp [hq]
            · simpa [hq] using ih h
        | .null | .bool _ | .int _ | .pair _ _ | .list _ | .map _ =>
            exact ih h

theorem compareChallengeRequirements_calls (o : Oracle) (r1 r2 : List Val) (b : Bool)
    (calls : List Call) (h : compareChallengeRequirements o r1 r2 = Except.ok (b, calls)) :
    calls.all Call.isGet = true := by
  unfold compareChallengeRequirements at h
  obtain ⟨n1, h1, h⟩ := exceptBind_ok h
  obtain ⟨n2, h2, h⟩ := exceptBind_ok h
  simp only [pure, Except.pure, Except.ok.injEq, Prod.mk.injEq] at h
  rw [← h.2]
  rfl

theorem normalizeNext_calls (o : Oracle) (r : Val) (v : Val) (calls : List Call)
    (h : normalizeNext o r = Except.ok (v, calls)) : calls.all Call.isGet = true := by
  unfold normalizeNext at h
  split at h
  · split at h
    · obtain ⟨rc, hrc, h⟩ := exceptBind_ok h
      obtain ⟨idV, hid, h⟩ := exceptBind_ok h
      split at h
      · obtain ⟨nameV, hn, h⟩ := exceptBind_ok h
        simp only [pure, Except.pure, Except.ok.injEq, Prod.mk.injEq] at h
        rw [← h.2]
        rfl
      · simp only [pure, Except.pure, Except.ok.injEq, Prod.mk.injEq] at h
        rw [← h.2]
        rfl
    · simp only [pure, Except.pure, Except.ok.injEq, Prod.mk.injEq] at h
      rw [← h.2]
      rfl
  · simp only [pure, Except.pure, Except.ok.injEq, Prod.mk.injEq] at h
    rw [← h.2]
    rfl

theorem all_isGet_append {a b : List Call} (ha : a.all Call.isGet = true)
    (hb : b.all Call.isGet = true) : (a ++ b).all Call.isGet = true := by
  simp [List.all_append, ha, hb]

theorem compareChallengeNext_calls (o : Oracle) (r1 r2 : Val) (b : Bool)
    (calls : List Call) (h : compareChallengeNext o r1 r2 = Except.ok (b, calls)) :
    calls.all Call.isGet = true := by
  unfold compareChallengeNext at h
  obtain ⟨p1, h1, h⟩ := exceptBind_ok h
  rcases p1 with ⟨n1, c1⟩
  obtain ⟨p2, h2, h⟩ := exceptBind_ok h
  rcases p2 with ⟨n2, c2⟩
  simp only [pure, Except.pure, Except.ok.injEq, Prod.mk.injEq] at h
  rw [← h.2]
  exact all_isGet_append (normalizeNext_calls o r1 n1 c1 h1) (normalizeNext_calls o r2 n2 c2 h2)

theorem verifyKeyStep_calls (docv : Doc) (o : Oracle) (key : String) (v : Val)
    (sr : StepRes) (calls : List Call)
    (h : verifyKeyStep docv o key v = Except.ok (sr, calls)) :
    calls.all Call.isGet = true := by
  unfold verifyKeyStep at h
  split at h
  · split at h <;>
      (simp only [pure, Except.pure, Except.ok.injEq, Prod.mk.injEq] at h; rw [← h.2]; rfl)
  · split at h
    · simp only [pure, Except.pure, Except.ok.injEq, Prod.mk.injEq] at h
      rw [← h.2]
      rfl
    · split at h
      · obtain ⟨lp, hca, h⟩ := exceptBind_ok h
        obtain ⟨vPL, hvpl, h⟩ := exceptBind_ok h
        obtain ⟨cmp, hcmp, h⟩ := exceptBind_ok h
        obtain ⟨vAnon, hva, h⟩ := exceptBind_ok h
        split at h <;>
          (simp only [pure, Except.pure, Except.ok.injEq, Prod.mk.injEq] at h; rw [← h.2];
           exact compareChallengeRequirements_calls _ _ _ cmp.1 cmp.2 hcmp)
      · split at h
        · obtain ⟨cmp, hc, h⟩ := exceptBind_ok h
          split at h <;>
            (simp only [pure, Except.pure, Except.ok.injEq, Prod.mk.injEq] at h; rw [← h.2];
             exact compareChallengeNext_calls _ _ _ cmp.1 cmp.2 hc)
        · simp only [pure, Except.pure, Except.ok.injEq, Prod.mk.injEq] at h
          rw [← h.2]
          rfl

theorem verifyKeysLoop_calls (docv : Doc) (o : Oracle) (ignore : List String)
    (nc : List (String × Val)) (b : Bool) (msgs : List String) (calls : List Call)
    (h : verifyKeysLoop docv o ignore nc = Except.ok (b, msgs, calls)) :
    calls.all Call.isGet = true := by
  induction nc generalizing b msgs calls with
  | nil =>
      unfold verifyKeysLoop at h
      simp only [Except.ok.injEq, Prod.mk.injEq] at h
      rw [← h.2.2]
      rfl
  | cons kv rest ih =>
      rcases kv with ⟨k, v⟩
      unfold verifyKeysLoop at h
      split at h
      · exact ih _ _ _ h
      · obtain ⟨sc, hstep, h⟩ := exceptBind_ok h
        split at h
        · obtain ⟨r, hrest, h⟩ := exceptBind_ok h
          simp only [pure, Except.pure, Except.ok.injEq, Prod.mk.injEq] at h
          rw [← h.2.2]
          exact all_isGet_append (verifyKeyStep_calls _ _ _ _ sc.1 sc.2 hstep)
            (ih r.1 r.2.1 r.2.2 hrest)
        · simp only [pure, Except.pure, Except.ok.injEq, Prod.mk.injEq] at h
          rw [← h.2.2]
          exact verifyKeyStep_calls _ _ _ _ sc.1 sc.2 hstep

theorem verifyFilesLoop_calls (localFiles : List (String × String))
    (sha1sums : List (String × Option String)) (fs : String → Option String)
    (dir : String) (shaFn : String → String) (download : String → String)
    (remoteFiles : List (String × RemoteFileEntry)) (b : Bool) (msgs : List String)
    (calls : List Call)
    (h : verifyFilesLoop localFiles sha1sums fs dir shaFn download remoteFiles
      = Except.ok (b, msgs, calls)) :
    calls.all Call.isGet = true := by
  induction remoteFiles generalizing b msgs calls with
  | nil =>
      unfold verifyFilesLoop at h
      simp only [Except.ok.injEq, Prod.mk.injEq] at h
      rw [← h.2.2]
      rfl
  | cons kv rest ih =>
      rcases kv with ⟨rname, entry⟩
      unfold verifyFilesLoop at h
      split at h
      · simp only [Except.ok.injEq, Prod.mk.injEq] at h
        rw [← h.2.2]
        rfl
      · split at h
        · exact absurd h (by simp)
        · obtain ⟨contents, hcont, h⟩ := exceptBind_ok h
          split at h <;>
            (simp only [pure, Except.pure, Except.ok.injEq, Prod.mk.injEq] at h; rw [← h.2.2];
             rfl)
        · obtain ⟨lcontents, hlc, h⟩ := exceptBind_ok h
          split at h
          · simp only [pure, Except.pure, Except.ok.injEq, Prod.mk.injEq] at h
            rw [← h.2.2]
            rfl
          · obtain ⟨r, hrest, h⟩ := exceptBind_ok h
            simp only [pure, Except.pure, Except.ok.injEq, Prod.mk.injEq] at h
            rw [← h.2.2]
            have hr := ih r.1 r.2.1 r.2.2 hrest
            simp [List.all_cons, Call.isGet, hr]

theorem verifyFilesSection_calls (docv : Doc) (cdFiles : List String) (o : Oracle)
    (fs : String → Option String) (dir : String) (shaFn : String → String)
    (b : Bool) (msgs : List String) (calls : List Call)
    (h : verifyFilesSection docv cdFiles o fs dir shaFn = Except.ok (b, msgs, calls)) :
    calls.all Call.isGet = true := by
  unfold verifyFilesSection at h
  split at h
  · simp only [pure, Except.pure, Except.ok.injEq, Prod.mk.injEq] at h
    rw [← h.2.2]
    rfl
  · obtain ⟨localFiles, hlf, h⟩ := exceptBind_ok h
    obtain ⟨remoteFiles, hrf, h⟩ := exceptBind_ok h
    split at h
    · simp only [pure, Except.pure, Except.ok.injEq, Prod.mk.injEq] at h
      rw [← h.2.2]
      rfl
    · obtain ⟨ploop, hloop, h⟩ := exceptBind_ok h
      rcases ploop with ⟨b2, m2, c2⟩
      simp only [pure, Except.pure, Except.ok.injEq, Prod.mk.injEq] at h
      rw [← h.2.2]
      have hl := verifyFilesLoop_calls _ _ _ _ _ _ _ _ _ _ hloop
      simp [List.all_cons, Call.isGet, hl]

theorem normalizeChallenge_calls (o : Oracle) (cid : Int) (cd : Doc) (nc : Doc)
    (calls : List Call) (h : normalizeChallenge o cid cd = Except.ok (nc, calls)) :
    calls.all Call.isGet = true := by
  unfold normalizeChallenge at h
  obtain ⟨descV, h1, h⟩ := exceptBind_ok h
  obtain ⟨descN, h2, h⟩ := exceptBind_ok h
  obtain ⟨attrN, h3, h⟩ := exceptBind_ok h
  obtain ⟨maxAtt, h4, h⟩ := exceptBind_ok h
  dsimp only [] at h
  repeat' split at h
  all_goals
    simp only [bind, Except.bind, pure, Except.pure, throw, throwThe, MonadExceptOf.throw,
      Except.ok.injEq, Prod.mk.injEq] at h
  all_goals (first | (rw [← h.2]; rfl) | cases h)

theorem setRequiredChallenges_list (elems : List Val) (cid : Int) (listing : List RC) :
    setRequiredChallenges (Val.list elems) cid listing =
      Except.ok
        ⟨pySortInts
           (if (resolveRefs listing elems).1.contains cid then
              (resolveRefs listing elems).1.erase cid
            else (resolveRefs listing elems).1),
         Val.bool false,
         if (resolveRefs listing elems).1.contains cid then
           (resolveRefs listing elems).2
             ++ ["Challenge cannot require itself. Skipping invalid requirement."]
         else (resolveRefs listing elems).2⟩ := by
  unfold setRequiredChallenges
  rcases hres : resolveRefs listing elems with ⟨rcs, warns⟩
  by_cases hc : cid ∈ rcs <;>
    simp [hres, hc, pure, Except.pure, bind, Except.bind]

/-- **C1.** The claim states the prerequisites list PATCHed by
`_set_required_challenges` contains no duplicate ids and is sorted
ascending.  The source computes the deduplicated
`required_challenge_ids = list(set(required_challenges))` (line 450) but
uses it only for the self-membership test: the payload (line 462) is the
sorted, NON-deduplicated `required_challenges` list.  At the failing input
`requirements: [2, 2]` for a challenge with remote id 1, the payload's
prerequisites are `[2, 2]` — sorted, but with a duplicate id, contradicting
the claim. -/
theorem c1_requirements_payload_keeps_duplicates :
    (setRequiredChallenges (Val.list [Val.int 2, Val.int 2]) 1 sampleListing).map
      (fun out => out.prerequisites) = Except.ok [2, 2] := rfl

/-- **C4 counterexample.** With `requirements: [1, 1]` on the challenge whose
own remote id is 1, the payload still contains the self-reference 1: the
source removes only the first occurrence (`required_challenges.remove`, line
457), so "every such self-reference is dropped" is false. -/
theorem c4_counterexample_self_reference_survives :
    (setRequiredChallenges (Val.list [Val.int 1, Val.int 1]) 1 sampleListing).map
      (fun out => out.prerequisites.contains 1) = Except.ok true := rfl

/-- **C4 (amended).** When the challenge's own id occurs at most once in the
resolved reference list, `_set_required_challenges` drops it from the payload,
emits the self-reference warning when it was present, and never raises: with
more than one occurrence (possible because the deduplicated set is not the
list sent), only the first occurrence is removed. -/
theorem c4_self_reference_guard (elems : List Val) (cid : Int) (listing : List RC)
    (h : ((resolveRefs listing elems).1.count cid) ≤ 1) :
    ∃ out, setRequiredChallenges (Val.list elems) cid listing = Except.ok out
      ∧ cid ∉ out.prerequisites
      ∧ (cid ∈ (resolveRefs listing elems).1 →
          "Challenge cannot require itself. Skipping invalid requirement." ∈ out.warnings) := by
  rw [setRequiredChallenges_list]
  by_cases hm : cid ∈ (resolveRefs listing elems).1
  · refine ⟨⟨pySortInts ((resolveRefs listing elems).1.erase cid), Val.bool false,
        (resolveRefs listing elems).2
          ++ ["Challenge cannot require itself. Skipping invalid requirement."]⟩,
      by simp [hm], ?_, ?_⟩
    · rw [mem_pySortInts]
      have hcount : ((resolveRefs listing elems).1.erase cid).count cid = 0 := by
        rw [List.count_erase_self]
        omega
      exact List.count_eq_zero.mp hcount
    · intro _
      simp
  · refine ⟨⟨pySortInts (resolveRefs listing elems).1, Val.bool false,
        (resolveRefs listing elems).2⟩, by simp [hm], ?_, ?_⟩
    · rw [mem_pySortInts]
      exact hm
    · intro hmem
      exact absurd hmem hm

/-- **C4 witness.** Concrete instance: `requirements: [2]` on the challenge
with remote id 2 — the sole self-reference is dropped and the warning
emitted. -/
theorem c4_self_reference_guard_witness :
    ((resolveRefs sampleListing [Val.int 2]).1.count 2 ≤ 1)
    ∧ ∃ out, setRequiredChallenges (Val.list [Val.int 2]) 2 sampleListing = Except.ok out
        ∧ (2 : Int) ∉ out.prerequisites
        ∧ ((2 : Int) ∈ (resolveRefs sampleListing [Val.int 2]).1 →
            "Challenge cannot require itself. Skipping invalid requirement." ∈ out.warnings) :=
  ⟨by decide, c4_self_reference_guard [Val.int 2] 2 sampleListing (by decide)⟩

/-- **C5.** The claim (and the source's own comment, lines 485-486:
"nid by challenge id / trust it and use it directly") says a positive integer
`next` reference is sent verbatim with no local failure.  The positive-integer
branch instead executes `_next = remote_challenge["id"]` (line 487), where
`remote_challenge` is a local name bound only by the loop of the
string branch, which never ran: CPython raises `UnboundLocalError`, so
`_set_next(5)` fails locally before any PATCH. -/
theorem c5_int_next_raises_unbound_local :
    setNext (Val.int 5) sampleListing 1 = Except.error PyErr.unboundLocal := rfl

/-- **C7.** `sync`'s per-file loop (lines 735-756), which by definition of
`syncFiles` is the sole source of file-mutation calls for a local file whose
basename exists remotely: an equal remote checksum issues zero file-mutation
calls; a differing checksum, or an absent one, issues exactly one delete (the
location matches exactly one listing entry) and one create for that file. -/
theorem c7_sync_file_change_detection :
    (∀ remoteFiles sha1sums fileLocations fs dir shaFn n p entry contents,
       AList.findS remoteFiles n = some entry →
       AList.findS sha1sums entry.location = some (some (shaFn contents)) →
       fs (dir ++ "/" ++ p) = some contents →
       syncFileStep remoteFiles sha1sums fileLocations fs dir shaFn n p = Except.ok [])
    ∧ (∀ remoteFiles sha1sums fileLocations fs dir shaFn n p entry contents s,
       AList.findS remoteFiles n = some entry →
       AList.findS sha1sums entry.location = some (some s) →
       fs (dir ++ "/" ++ p) = some contents →
       shaFn contents ≠ s →
       fileLocations.filter (fun l => l == entry.location) = [entry.location] →
       syncFileStep remoteFiles sha1sums fileLocations fs dir shaFn n p
         = Except.ok [FileCall.deleteFile entry.location, FileCall.createFile p])
    ∧ (∀ remoteFiles sha1sums fileLocations fs dir shaFn n p entry,
       AList.findS remoteFiles n = some entry →
       AList.findS sha1sums entry.location = some none →
       (fs (dir ++ "/" ++ p)).isSome = true →
       fileLocations.filter (fun l => l == entry.location) = [entry.location] →
       syncFileStep remoteFiles sha1sums fileLocations fs dir shaFn n p
         = Except.ok [FileCall.deleteFile entry.location, FileCall.createFile p]) := by
  refine ⟨?_, ?_, ?_⟩
  · intro remoteFiles sha1sums fileLocations fs dir shaFn n p entry contents h1 h2 h3
    simp [syncFileStep, h1, h2, readLocalFile, h3, pure, Except.pure, bind, Except.bind]
  · intro remoteFiles sha1sums fileLocations fs dir shaFn n p entry contents s h1 h2 h3 hne hf
    simp [syncFileStep, h1, h2, readLocalFile, h3, pure, Except.pure, bind, Except.bind,
      hne, createFileCall, deleteFileCalls, hf]
  · intro remoteFiles sha1sums fileLocations fs dir shaFn n p entry h1 h2 h3 hf
    rcases hcontents : fs (dir ++ "/" ++ p) with _ | c
    · rw [hcontents] at h3; simp at h3
    · simp [syncFileStep, h1, h2, pure, Except.pure, bind, Except.bind, createFileCall,
        hcontents, deleteFileCalls, hf]

/-- **C7 witness.** Concrete instances of all three cases for the fixture file
`fa` at location `aa/fa` with local contents `A` (checksum function: identity):
matching checksum `A` ⇒ no calls; differing checksum `Z` ⇒ one delete and one
create; no checksum ⇒ one delete and one create. -/
theorem c7_sync_file_change_detection_witness :
    syncFileStep [("fa", ⟨"u", "aa/fa"⟩)] [("aa/fa", some "A")] ["aa/fa"] c3Fs "d"
        (fun s => s) "fa" "fa" = Except.ok []
    ∧ syncFileStep [("fa", ⟨"u", "aa/fa"⟩)] [("aa/fa", some "Z")] ["aa/fa"] c3Fs "d"
        (fun s => s) "fa" "fa"
        = Except.ok [FileCall.deleteFile "aa/fa", FileCall.createFile "fa"]
    ∧ syncFileStep [("fa", ⟨"u", "aa/fa"⟩)] [("aa/fa", none)] ["aa/fa"] c3Fs "d"
        (fun s => s) "fa" "fa"
        = Except.ok [FileCall.deleteFile "aa/fa", FileCall.createFile "fa"] :=
  ⟨c7_sync_file_change_detection.1 [("fa", ⟨"u", "aa/fa"⟩)] [("aa/fa", some "A")]
      ["aa/fa"] c3Fs "d" (fun s => s) "fa" "fa" ⟨"u", "aa/fa"⟩ "A" rfl rfl rfl,
   c7_sync_file_change_detection.2.1 [("fa", ⟨"u", "aa/fa"⟩)] [("aa/fa", some "Z")]
      ["aa/fa"] c3Fs "d" (fun s => s) "fa" "fa" ⟨"u", "aa/fa"⟩ "A" "Z" rfl rfl rfl
      (by decide) rfl,
   c7_sync_file_change_detection.2.2 [("fa", ⟨"u", "aa/fa"⟩)] [("aa/fa", none)]
      ["aa/fa"] c3Fs "d" (fun s => s) "fa" "fa" ⟨"u", "aa/fa"⟩ rfl rfl rfl rfl⟩

/-- **C9.** `create`'s pre-flight (lines 790-821): a document without a truthy
`name` raises `InvalidChallengeDefinition`; with a name but no truthy `value`
and a non-dynamic type it raises `InvalidChallengeDefinition`; with a truthy
non-ignored `files` list whose validation fails it raises that
`InvalidChallengeFile` error.  In every such case the returned call trace is
empty: the POST creating the challenge is the first remote call and is never
reached, so the remote state is untouched.  The last conjunct ties the
validation failure to a concrete missing path. -/
theorem c9_create_preflight_validation :
    (∀ doc fs dir ignore, (Doc.getD doc "name" (.bool false)).truthy = false →
       createAttempt doc fs dir ignore
         = (Except.error (PyErr.invalidDefinition "Challenge does not provide a name"), []))
    ∧ (∀ doc fs dir ignore, (Doc.getD doc "name" (.bool false)).truthy = true →
       (Doc.getD doc "value" (.bool false)).truthy = false →
       (Doc.getD doc "type" (.str "standard")).beq (.str "dynamic") = false →
       createAttempt doc fs dir ignore
         = (Except.error (PyErr.invalidDefinition "Challenge does not provide a value"), []))
    ∧ (∀ doc fs dir ignore e, (Doc.getD doc "name" (.bool false)).truthy = true →
       ((Doc.getD doc "value" (.bool false)).truthy = true
        ∨ (Doc.getD doc "type" (.str "standard")).beq (.str "dynamic") = true) →
       (Doc.getD doc "files" (.bool false)).truthy = true →
       ignore.contains "files" = false →
       validateFiles doc fs dir = Except.error e →
       createAttempt doc fs dir ignore = (Except.error e, []))
    ∧ (∀ doc fs dir files p, Doc.getD doc "files" .null = Val.list files →
       Val.str p ∈ files → fs (dir ++ "/" ++ p) = none →
       ∃ m, validateFiles doc fs dir = Except.error (PyErr.invalidFile m)) := by
  refine ⟨?_, ?_, ?_, ?_⟩
  · intro doc fs dir ignore hname
    unfold createAttempt
    simp [hname, bind, Except.bind, throw, throwThe, MonadExceptOf.throw]
  · intro doc fs dir ignore hname hvalue htype
    unfold createAttempt
    simp [hname, hvalue, htype, bind, Except.bind, pure, Except.pure, throw, throwThe,
      MonadExceptOf.throw]
  · intro doc fs dir ignore e hname hvt hfiles hig hval
    have hig2 : "files" ∉ ignore := by simpa using hig
    unfold createAttempt
    rcases hvt with hv | ht
    · simp [hname, hv, hfiles, hig2, hval, bind, Except.bind, pure, Except.pure]
    · simp [hname, ht, hfiles, hig2, hval, bind, Except.bind, pure, Except.pure]
  · intro doc fs dir files p hget hmem hmiss
    have hne : files ≠ [] := by
      rintro rfl
      cases hmem
    unfold validateFiles
    rw [show (pyOr (doc.getD "files" .null) (.list [])) = Val.list files from by
      rw [hget]
      simp [pyOr, Val.truthy, hne]]
    exact validateFilesList_error_of_missing fs dir files p hmem hmiss

/-- **C9 witness.** A nameless document; a document with a name but no value;
and a document listing the missing file `nofile` on an empty disk — each case
errors before the challenge POST, with an empty call trace. -/
theorem c9_create_preflight_validation_witness :
    createAttempt [] (fun _ => none) "d" []
      = (Except.error (PyErr.invalidDefinition "Challenge does not provide a name"), [])
    ∧ createAttempt [("name", .str "c")] (fun _ => none) "d" []
      = (Except.error (PyErr.invalidDefinition "Challenge does not provide a value"), [])
    ∧ createAttempt [("name", .str "c"), ("value", .int 5), ("files", .list [.str "nofile"])]
        (fun _ => none) "d" []
      = (Except.error (PyErr.invalidFile "File nofile could not be loaded"), [])
    ∧ ∃ m, validateFiles [("name", .str "c"), ("value", .int 5), ("files", .list [.str "nofile"])]
        (fun _ => none) "d" = Except.error (PyErr.invalidFile m) :=
  ⟨c9_create_preflight_validation.1 [] (fun _ => none) "d" [] rfl,
   c9_create_preflight_validation.2.1 [("name", .str "c")] (fun _ => none) "d" [] rfl rfl rfl,
   c9_create_preflight_validation.2.2.1
     [("name", .str "c"), ("value", .int 5), ("files", .list [.str "nofile"])]
     (fun _ => none) "d" [] (PyErr.invalidFile "File nofile could not be loaded")
     rfl (Or.inl rfl) rfl rfl rfl,
   c9_create_preflight_validation.2.2.2
     [("name", .str "c"), ("value", .int 5), ("files", .list [.str "nofile"])]
     (fun _ => none) "d" [.str "nofile"] "nofile" rfl (List.mem_singleton.mpr rfl) rfl⟩

/-- **C10.** `load_installed_challenges` maps a failed response and a
response carrying no data both to the empty list (it never raises), and
`_load_challenge_id` maps an empty listing — whatever its cause — to the same
`RemoteChallengeNotFound` error, making a listing failure indistinguishable
from a remote with no challenges. -/
theorem c10_listing_failure_indistinguishable :
    (∀ r : Resp (List RC), r.ok = false → loadInstalledChallenges r = [])
    ∧ (∀ r : Resp (List RC), r.data = none → loadInstalledChallenges r = [])
    ∧ (∀ nameV d, loadChallengeId nameV ⟨false, d⟩
        = Except.error (PyErr.remoteNotFound "Could not load any remote challenges"))
    ∧ (∀ nameV, loadChallengeId nameV ⟨true, some []⟩
        = Except.error (PyErr.remoteNotFound "Could not load any remote challenges"))
    ∧ (∀ nameV, loadChallengeId nameV ⟨true, none⟩
        = Except.error (PyErr.remoteNotFound "Could not load any remote challenges")) := by
  refine ⟨?_, ?_, ?_, ?_, ?_⟩
  · intro r h
    simp [loadInstalledChallenges, h]
  · rintro ⟨ok, data⟩ h
    cases h
    cases ok <;> simp [loadInstalledChallenges]
  · intro nameV d
    simp [loadChallengeId, loadInstalledChallenges, throw, throwThe, MonadExceptOf.throw]
  · intro nameV
    simp [loadChallengeId, loadInstalledChallenges, throw, throwThe, MonadExceptOf.throw]
  · intro nameV
    simp [loadChallengeId, loadInstalledChallenges, throw, throwThe, MonadExceptOf.throw]

/-- **C8.** Default elision for `attempts`: a document without an `attempts`
key passes the key check against a normalized remote value of 0
(`is_default_challenge_property("attempts", 0)` is true) and fails it against
3, and on the fixture challenge the whole `verify` returns true against
`max_attempts = 0` but false (with the diagnostic) against `max_attempts = 3`. -/
theorem c8_attempts_default_elision :
    (∀ docv o, Doc.find docv "attempts" = none →
       verifyKeyStep docv o "attempts" (Val.int 0) = Except.ok (StepRes.pass, []))
    ∧ (∀ docv o, Doc.find docv "attempts" = none →
       verifyKeyStep docv o "attempts" (Val.int 3)
         = Except.ok (StepRes.fail "attempts is not in challenge.", []))
    ∧ (verify sampleDocNoFiles (sampleOracle 0 [] []) (fun _ => none) "d" (fun s => s) []).res
        = Except.ok true
    ∧ (verify sampleDocNoFiles (sampleOracle 3 [] []) (fun _ => none) "d" (fun s => s) []).res
        = Except.ok false
    ∧ "attempts is not in challenge."
        ∈ (verify sampleDocNoFiles (sampleOracle 3 [] []) (fun _ => none) "d"
            (fun s => s) []).msgs := by
  refine ⟨?_, ?_, rfl, rfl, ?_⟩
  · intro docv o h
    unfold verifyKeyStep
    rw [h]
    rfl
  · intro docv o h
    unfold verifyKeyStep
    rw [h]
    rfl
  · rw [show (verify sampleDocNoFiles (sampleOracle 3 [] []) (fun _ => none) "d"
        (fun s => s) []).msgs = ["attempts is not in challenge."] from rfl]
    exact List.mem_singleton.mpr rfl

/-- **C8 witness.** The fixture document omits `attempts`; the two key-step
facts instantiated on it. -/
theorem c8_attempts_default_elision_witness :
    Doc.find sampleDocNoFiles "attempts" = none
    ∧ verifyKeyStep sampleDocNoFiles (sampleOracle 0 [] []) "attempts" (Val.int 0)
        = Except.ok (StepRes.pass, [])
    ∧ verifyKeyStep sampleDocNoFiles (sampleOracle 3 [] []) "attempts" (Val.int 3)
        = Except.ok (StepRes.fail "attempts is not in challenge.", []) :=
  ⟨rfl, c8_attempts_default_elision.1 sampleDocNoFiles (sampleOracle 0 [] []) rfl,
   c8_attempts_default_elision.2.1 sampleDocNoFiles (sampleOracle 3 [] []) rfl⟩

/-- **C3.** The claim (following the spec's intended contract) says `verify`
returns true only when EVERY local/remote file pair compares equal.  On the
fixture — two files, both with remote checksums, where `fa` matches and `fb`
does not (`zzz` vs the local checksum of contents `B`) — `verify` returns
true anyway: the loop's early `return True` (line 1085) fires on the first
checksum match and the second file is never compared.  The spec itself flags
this early-exit as a control-flow defect (§9), so the code, not the claim,
is wrong. -/
theorem c3_verify_files_early_return_bug :
    (verify c3Doc (sampleOracle 0 c3Files c3Entries) c3Fs "d" (fun s => s) []).res
      = Except.ok true
    ∧ AList.findS (filesSha1sums c3Entries) "bb/fb" = some (some "zzz")
    ∧ c3Fs "d/fb" = some "B"
    ∧ (((fun s : String => s) "B") == "zzz") = false :=
  ⟨rfl, rfl, rfl, rfl⟩

/-- **C2 counterexample.** The claim says verify leaves the in-memory
challenge document mapping exactly as it was (no key added).  Line 997
(`challenge["files"] = challenge.get("files") or []`) writes into the
document: on a document without a `files` key, verify adds one. -/
theorem c2_counterexample_verify_mutates_document :
    Doc.hasKey (verify sampleDocNoFiles (sampleOracle 0 [] []) (fun _ => none) "d"
        (fun s => s) []).doc "files" = true
    ∧ Doc.hasKey sampleDocNoFiles "files" = false := ⟨rfl, rfl⟩

/-- **C2 (amended).** For every verify invocation, every remote call issued is
a GET — verify never mutates the remote side — and the in-memory document
after the call is either exactly the original (when the call aborts before
line 997) or exactly the original with its `files` key set to
`self.get("files") or []`; no other key is added, removed or changed.  The
filesystem is a read-only input of the embedding because verify's source only
ever opens local files for reading, so nothing is written to disk. -/
theorem c2_verify_frame (doc : Doc) (o : Oracle) (fs : String → Option String)
    (dir : String) (shaFn : String → String) (ignore : List String) :
    ((verify doc o fs dir shaFn ignore).calls.all Call.isGet = true)
    ∧ ((verify doc o fs dir shaFn ignore).doc = doc
       ∨ (verify doc o fs dir shaFn ignore).doc
         = Doc.insert doc "files" (pyOr (Doc.getD doc "files" .null) (.list []))) := by
  unfold verify
  split
  · exact ⟨rfl, Or.inl rfl⟩
  · rename_i cid hcid
    split
    · exact ⟨rfl, Or.inl rfl⟩
    · rename_i cd hcd
      split
      · exact ⟨rfl, Or.inl rfl⟩
      · rename_i nc ncalls hnorm
        dsimp only []
        split
        · refine ⟨?_, Or.inr rfl⟩
          exact all_isGet_append rfl (normalizeChallenge_calls _ _ _ _ _ hnorm)
        · rename_i msgs kcalls hkeys
          refine ⟨?_, Or.inr rfl⟩
          exact all_isGet_append
            (all_isGet_append rfl (normalizeChallenge_calls _ _ _ _ _ hnorm))
            (verifyKeysLoop_calls _ _ _ _ _ _ _ hkeys)
        · rename_i msgs kcalls hkeys
          split
          · refine ⟨?_, Or.inr rfl⟩
            exact all_isGet_append
              (all_isGet_append rfl (normalizeChallenge_calls _ _ _ _ _ hnorm))
              (verifyKeysLoop_calls _ _ _ _ _ _ _ hkeys)
          · split
            · refine ⟨?_, Or.inr rfl⟩
              exact all_isGet_append
                (all_isGet_append rfl (normalizeChallenge_calls _ _ _ _ _ hnorm))
                (verifyKeysLoop_calls _ _ _ _ _ _ _ hkeys)
            · rename_i b fmsgs fcalls hfsec
              refine ⟨?_, Or.inr rfl⟩
              exact all_isGet_append
                (all_isGet_append
                  (all_isGet_append rfl (normalizeChallenge_calls _ _ _ _ _ hnorm))
                  (verifyKeysLoop_calls _ _ _ _ _ _ _ hkeys))
                (verifyFilesSection_calls _ _ _ _ _ _ _ _ _ hfsec)

/-- **C6 counterexample.** The claim says every create/sync initial payload is
sent with state `"hidden"`.  The `extra` map is merged over the payload
verbatim (line 295, `{**challenge_payload, **challenge.get("extra", {})}`), so
a document whose `extra` carries a `state` key overwrites the hidden state: for
`extra: {state: visible}` the initial payload's state is `"visible"`. -/
theorem c6_counterexample_extra_overrides_hidden :
    (getInitialChallengePayload
        [("name", .str "x"), ("extra", Val.mapOf [("state", .str "visible")])] []).map
      (fun p => p.find "state") = Except.ok (some (Val.str "visible")) := rfl

/-- **C6 (amended).** The initial payload of create and sync carries
`state: "hidden"` whenever neither `extra` nor `geo_flags` defines a `state`
key of its own (they are merged verbatim over the payload and would override
it); and the trailing PATCH driving the challenge to `visible` is issued if
and only if the resolved desired state is visible — for sync the document's
`state` (default visible), or the remote's current state when `state` is
ignored; for create the document's `state` (default visible), or visible when
ignored. -/
theorem c6_visibility_bracket :
    (∀ doc ignore ex geo p,
       doc.getD "extra" (.map []) = Val.map ex →
       Doc.hasKey (pairsToDoc ex) "state" = false →
       doc.getD "geo_flags" (.map []) = Val.map geo →
       Doc.hasKey (pairsToDoc geo) "state" = false →
       getInitialChallengePayload doc ignore = Except.ok p →
       p.find "state" = some (Val.str "hidden"))
    ∧ (∀ doc rc ignore ex geo p,
       doc.getD "extra" (.map []) = Val.map ex →
       Doc.hasKey (pairsToDoc ex) "state" = false →
       doc.getD "geo_flags" (.map []) = Val.map geo →
       Doc.hasKey (pairsToDoc geo) "state" = false →
       syncInitialPayload doc rc ignore = Except.ok p →
       p.find "state" = some (Val.str "hidden"))
    ∧ (∀ doc rc ignore,
       syncMakeVisible doc rc ignore = specResolvedDesiredVisibleSync doc rc ignore)
    ∧ (∀ doc ignore,
       createMakeVisible doc ignore = specResolvedDesiredVisibleCreate doc ignore)
    ∧ (∀ doc rc ignore, ignore.contains "state" = false →
       (doc.getD "state" (.str "visible")).beq (.str "visible") = true →
       syncMakeVisible doc rc ignore = true ∧ createMakeVisible doc ignore = true) := by
  refine ⟨getInitialChallengePayload_find_state, ?_, ?_, ?_, ?_⟩
  · intro doc rc ignore ex geo p hex hexk hgeo hgeok hp
    unfold syncInitialPayload at hp
    obtain ⟨mid, hmid, h2⟩ := exceptBind_ok hp
    rw [syncResetIgnored_find_state mid rc ignore p h2]
    exact getInitialChallengePayload_find_state doc ignore ex geo mid hex hexk hgeo hgeok hmid
  · intro doc rc ignore
    cases h : ignore.contains "state" <;>
      simp [syncMakeVisible, specResolvedDesiredVisibleSync, h]
  · intro doc ignore
    cases h : ignore.contains "state" <;>
      simp [createMakeVisible, specResolvedDesiredVisibleCreate, h, Bool.or_comm]
  · intro doc rc ignore h1 h2
    have h1m : "state" ∉ ignore := by simpa using h1
    constructor
    · simp [syncMakeVisible, h1m, h2]
    · simp [createMakeVisible, h2]

/-- **C6 witness.** The fixture document (no `extra`, no `geo_flags`, no
`state` key): its initial payload carries `state: "hidden"`, and with nothing
ignored the final visible PATCH is issued by both sync and create. -/
theorem c6_visibility_bracket_witness :
    sampleDocNoFiles.getD "extra" (.map []) = Val.map []
    ∧ Doc.hasKey (pairsToDoc []) "state" = false
    ∧ getInitialChallengePayload sampleDocNoFiles [] = Except.ok
        [("name", .str "c"), ("category", .str ""), ("description", .str "d"),
         ("attribution", .str ""), ("type", .str "standard"), ("state", .str "hidden"),
         ("max_attempts", .int 0), ("connection_info", .null)]
    ∧ Doc.find
        [("name", .str "c"), ("category", .str ""), ("description", .str "d"),
         ("attribution", .str ""), ("type", .str "standard"), ("state", .str "hidden"),
         ("max_attempts", .int 0), ("connection_info", .null)] "state"
        = some (Val.str "hidden")
    ∧ (syncMakeVisible sampleDocNoFiles (sampleRemoteDoc 0 []) [] = true
       ∧ createMakeVisible sampleDocNoFiles [] = true) :=
  ⟨rfl, rfl, rfl,
   c6_visibility_bracket.1 sampleDocNoFiles [] [] []
     [("name", .str "c"), ("category", .str ""), ("description", .str "d"),
      ("attribution", .str ""), ("type", .str "standard"), ("state", .str "hidden"),
      ("max_attempts", .int 0), ("connection_info", .null)] rfl rfl rfl rfl rfl,
   c6_visibility_bracket.2.2.2.2 sampleDocNoFiles (sampleRemoteDoc 0 []) [] rfl rfl⟩

/-- **C10 witness.** The failure and the genuinely-empty listing produce the
same error for the fixture challenge name. -/
theorem c10_listing_failure_indistinguishable_witness :
    loadInstalledChallenges (⟨false, some sampleListing⟩ : Resp (List RC)) = []
    ∧ loadInstalledChallenges (⟨true, none⟩ : Resp (List RC)) = []
    ∧ loadChallengeId (some (Val.str "c")) ⟨false, some sampleListing⟩
      = Except.error (PyErr.remoteNotFound "Could not load any remote challenges")
    ∧ loadChallengeId (some (Val.str "c")) ⟨true, some []⟩
      = Except.error (PyErr.remoteNotFound "Could not load any remote challenges") :=
  ⟨c10_listing_failure_indistinguishable.1 _ rfl,
   c10_listing_failure_indistinguishable.2.1 _ rfl,
   c10_listing_failure_indistinguishable.2.2.1 _ _,
   c10_listing_failure_indistinguishable.2.2.2.1 _⟩

end Ctfcli
